import Mathlib

/-!
Shallow embedding of `scrape_youtube_channels.py`.

The script has four functions:
* `get_videos` paginates the playlist-items endpoint: it requests pages in a
  loop, appends one record per item, and continues while the response carries a
  `nextPageToken`.
* `get_view_counts` turns one statistics response into a Python dict mapping
  each response item's id to its `viewCount` string.
* `get_video_data` splits the video list into slices of 50, fetches the stats
  for each slice, and merges `views` into every record with default `'0'`.
* `write_data` serializes the records to `<channel_name>.csv` with Python's
  `csv.DictWriter` (QUOTE_MINIMAL quoting, `\r\n` row terminator).

Network responses are modelled explicitly: the listing endpoint as the list of
page responses the loop consumes in order, and the statistics endpoint as a
function from the requested batch of ids to the list of `(id, viewCount)`
items of its response.  Python dicts are modelled as association lists with
insert-or-overwrite semantics.
-/

/-- `VIDEO_BASE_URL` constant of the script. -/
def VIDEO_BASE_URL : String := "https://www.youtube.com/watch?v="

/-- One element of a listing response's `items[]`: its `snippet.title` and
`snippet.resourceId.videoId`. -/
structure PageItem where
  title : String
  videoId : String
deriving DecidableEq

/-- One response of the playlist-items endpoint: its `items[]` and its
optional `nextPageToken`. -/
structure Page where
  items : List PageItem
  nextPageToken : Option String
deriving DecidableEq

/-- The dict `get_videos` appends per item: title, watch URL and raw id. -/
structure VideoRecord where
  title : String
  video_url : String
  video_id : String
deriving DecidableEq

/-- A record after `get_video_data` has merged in the `views` field. -/
structure FullRecord where
  title : String
  video_url : String
  video_id : String
  views : String
deriving DecidableEq

/-- Line 71 of the script: the record built from one response item. -/
def itemRecord (it : PageItem) : VideoRecord :=
  { title := it.title, video_url := VIDEO_BASE_URL ++ it.videoId, video_id := it.videoId }

/-- `get_videos`, lines 61-81: the pagination loop over the sequence of page
responses the endpoint supplies.  Each iteration appends one record per item
of the current response; when the response has a `nextPageToken` the loop
continues with the next response, otherwise it breaks. -/
def get_videos : List Page → List VideoRecord
  | [] => []
  | p :: rest =>
    match p.nextPageToken with
    | some _ => p.items.map itemRecord ++ get_videos rest
    | none => p.items.map itemRecord

/-- Number of `requests.get` calls the pagination loop issues on this response
sequence: one per iteration, stopping after the first response without a
`nextPageToken`. -/
def num_requests : List Page → Nat
  | [] => 0
  | p :: rest =>
    match p.nextPageToken with
    | some _ => 1 + num_requests rest
    | none => 1

/-- The `pageToken` parameters the loop sends, in order (line 77 of the
script stores the received cursor into `params` for the next request). -/
def tokens_sent : List Page → List String
  | [] => []
  | p :: rest =>
    match p.nextPageToken with
    | some t => t :: tokens_sent rest
    | none => []

/-- The pagination cursors the responses supply, in the order supplied. -/
def cursors_supplied (pages : List Page) : List String :=
  pages.filterMap (fun p => p.nextPageToken)

/-- Total number of playlist items across the response sequence. -/
def total_items (pages : List Page) : Nat :=
  (pages.map (fun p => p.items.length)).sum

/-- A playlist listing "served in pages of size 50", continuation part: every
response before the last carries exactly 50 items and a cursor; the last
response carries between 1 and 50 items and no cursor. -/
def served50_tail : List Page → Prop
  | [] => False
  | [p] => 0 < p.items.length ∧ p.items.length ≤ 50 ∧ p.nextPageToken = none
  | p :: q :: rest =>
    p.items.length = 50 ∧ p.nextPageToken ≠ none ∧ served50_tail (q :: rest)

/-- A playlist listing of `total_items pages` videos served in pages of size
50: a single response holds at most 50 items (possibly none, for an empty
playlist) and no cursor; with several responses, each one before the last
holds exactly 50 items and a cursor, and the last holds the 1-50 remaining
items and no cursor. -/
def served50 : List Page → Prop
  | [] => False
  | [p] => p.items.length ≤ 50 ∧ p.nextPageToken = none
  | p :: q :: rest =>
    p.items.length = 50 ∧ p.nextPageToken ≠ none ∧ served50_tail (q :: rest)

/-- Python dict assignment `m[k] = v` on the association-list model:
overwrite the binding when the key is present (keeping its position), else
append the new binding. -/
def dictInsert (m : List (String × String)) (k v : String) : List (String × String) :=
  if m.any (fun q => q.1 == k) then
    m.map (fun q => if q.1 == k then (k, v) else q)
  else
    m ++ [(k, v)]

/-- The `id` request parameter of `get_view_counts`, line 95. -/
def id_string (video_ids : List String) : String :=
  String.intercalate "," video_ids

/-- `get_view_counts`, lines 84-109: builds the dict `stats` mapping each
response item's `id` to its `statistics.viewCount` string, in response
order.  The response is modelled as the list of `(id, viewCount)` pairs of
its `items[]`; the requested ids only shape the request URL, not the
parsing. -/
def get_view_counts (resp_items : List (String × String)) : List (String × String) :=
  resp_items.foldl (fun m it => dictInsert m it.1 it.2) []

/-- Python `m.get(k, d)` on the dict model. -/
def dictGet (m : List (String × String)) (k d : String) : String :=
  match m.find? (fun q => q.1 == k) with
  | some q => q.2
  | none => d

/-- The keys of a dict model. -/
def dictKeys (m : List (String × String)) : List String :=
  m.map (fun q => q.1)

/-- The batch slices `videos[i:i+50]` for `i = 0, 50, 100, ...` of line 129,
with the list's length as structural fuel (the fuel never runs out, since
each step drops at least one element). -/
def chunks50Go : Nat → List VideoRecord → List (List VideoRecord)
  | _, [] => []
  | 0, _ :: _ => []
  | n + 1, v :: vs => ((v :: vs).take 50) :: chunks50Go n ((v :: vs).drop 50)

/-- The batches the loop of line 129 iterates over. -/
def chunks50 (videos : List VideoRecord) : List (List VideoRecord) :=
  chunks50Go videos.length videos

/-- Lines 135-138: one merged record; `views` is
`view_counts.get(video['video_id'], '0')`. -/
def mergeRecord (view_counts : List (String × String)) (v : VideoRecord) : FullRecord :=
  { title := v.title, video_url := v.video_url, video_id := v.video_id,
    views := dictGet view_counts v.video_id "0" }

/-- One iteration of the batch loop: fetch the stats for the batch's ids and
merge them into the batch's records, in batch order. -/
def batchMerge (respFor : List String → List (String × String))
    (batch : List VideoRecord) : List FullRecord :=
  batch.map (mergeRecord (get_view_counts (respFor (batch.map (fun v => v.video_id)))))

/-- `get_video_data` lines 125-142, after the listing is obtained: the batch
loop accumulating `final_data`.  `respFor` models the statistics endpoint:
the response items it returns for a requested batch of ids. -/
def get_video_data_from (respFor : List String → List (String × String))
    (videos : List VideoRecord) : List FullRecord :=
  ((chunks50 videos).map (batchMerge respFor)).flatten

/-- `get_video_data`, lines 112-142: list the playlist, then merge stats. -/
def get_video_data (pages : List Page)
    (respFor : List String → List (String × String)) : List FullRecord :=
  get_video_data_from respFor (get_videos pages)

/-- Number of `get_view_counts` calls the batch loop issues: one per slice. -/
def stats_calls (videos : List VideoRecord) : Nat :=
  (chunks50 videos).length

/-- Forgets the merged `views` field of a record. -/
def toVideo (r : FullRecord) : VideoRecord :=
  { title := r.title, video_url := r.video_url, video_id := r.video_id }

/-- The string is a decimal numeral, i.e. resolves to a non-negative
integer. -/
def isCount (s : String) : Bool :=
  !s.data.isEmpty && s.data.all (fun c => c.isDigit)

/-- QUOTE_MINIMAL: `csv.writer` quotes a field iff it contains the `,`
delimiter, the `"` quote character, or a character of the `\r\n` line
terminator. -/
def needsQuoting (s : String) : Bool :=
  s.data.any (fun c => c == ',' || c == '"' || c == '\r' || c == '\n')

/-- Inside a quoted field every quote character is doubled. -/
def escapeQuotes : List Char → List Char
  | [] => []
  | c :: cs => if c == '"' then '"' :: '"' :: escapeQuotes cs else c :: escapeQuotes cs

/-- One serialized field. -/
def csvField (s : String) : List Char :=
  if needsQuoting s then '"' :: (escapeQuotes s.data ++ ['"']) else s.data

/-- Fields joined with the `,` delimiter. -/
def sepByComma : List (List Char) → List Char
  | [] => []
  | [f] => f
  | f :: g :: fs => f ++ ',' :: sepByComma (g :: fs)

/-- One `csv.writer` row: the delimited fields plus the `\r\n` terminator. -/
def csvRow (fields : List String) : List Char :=
  sepByComma (fields.map csvField) ++ ['\r', '\n']

/-- `write_data`, lines 145-169: the produced file's name and content.
`writeheader` emits the `fieldnames` row, then `writerows` emits one row per
record projected to `['title', 'video_url', 'views']`; the file is opened
with mode `'w'` (truncating), `newline=''` and UTF-8 encoding, so the file
content is exactly the emitted characters. -/
def write_data (data : List FullRecord) (channel_name : String) : String × String :=
  (channel_name ++ ".csv",
    String.mk (csvRow ["title", "video_url", "views"] ++
      (data.map (fun v => csvRow [v.title, v.video_url, v.views])).flatten))

/-- Number of newline characters in a character list. -/
def nlCount : List Char → Nat
  | [] => 0
  | c :: cs => (if c = '\n' then 1 else 0) + nlCount cs

/-- Number of newline characters in the file content: the physical line
count of a text file whose last line is terminated. -/
def countNL (s : String) : Nat :=
  nlCount s.data

lemma get_videos_cons_some {p : Page} {t : String} (rest : List Page)
    (h : p.nextPageToken = some t) :
    get_videos (p :: rest) = p.items.map itemRecord ++ get_videos rest := by
  simp [get_videos, h]

lemma get_videos_cons_none {p : Page} (rest : List Page) (h : p.nextPageToken = none) :
    get_videos (p :: rest) = p.items.map itemRecord := by
  simp [get_videos, h]

lemma num_requests_cons_some {p : Page} {t : String} (rest : List Page)
    (h : p.nextPageToken = some t) :
    num_requests (p :: rest) = 1 + num_requests rest := by
  simp [num_requests, h]

lemma num_requests_cons_none {p : Page} (rest : List Page) (h : p.nextPageToken = none) :
    num_requests (p :: rest) = 1 := by
  simp [num_requests, h]

lemma tokens_sent_cons_some {p : Page} {t : String} (rest : List Page)
    (h : p.nextPageToken = some t) :
    tokens_sent (p :: rest) = t :: tokens_sent rest := by
  simp [tokens_sent, h]

lemma tokens_sent_cons_none {p : Page} (rest : List Page) (h : p.nextPageToken = none) :
    tokens_sent (p :: rest) = [] := by
  simp [tokens_sent, h]

lemma total_items_cons (p : Page) (rest : List Page) :
    total_items (p :: rest) = p.items.length + total_items rest := by
  simp [total_items]

lemma served50_tail_facts : ∀ pages : List Page, served50_tail pages →
    (get_videos pages).length = total_items pages ∧
    num_requests pages = (total_items pages + 49) / 50 ∧
    0 < total_items pages ∧
    tokens_sent pages = cursors_supplied pages := by
  intro pages h
  induction pages with
  | nil => simp [served50_tail] at h
  | cons p rest ih =>
    cases rest with
    | nil =>
      obtain ⟨h1, h2, h3⟩ := h
      rw [get_videos_cons_none _ h3, num_requests_cons_none _ h3, tokens_sent_cons_none _ h3,
        total_items_cons]
      refine ⟨by simp [total_items], by simp [total_items]; omega, ?_, ?_⟩
      · simp [total_items]; omega
      · simp [cursors_supplied, h3]
    | cons q rest2 =>
      obtain ⟨h1, h2, h3⟩ := h
      obtain ⟨t, ht⟩ := Option.ne_none_iff_exists.mp h2
      obtain ⟨ih1, ih2, ih3, ih4⟩ := ih h3
      rw [get_videos_cons_some _ ht.symm, num_requests_cons_some _ ht.symm,
        tokens_sent_cons_some _ ht.symm, total_items_cons]
      refine ⟨by simp [ih1, h1], ?_, by omega, ?_⟩
      · rw [ih2, h1]; omega
      · rw [ih4]; simp [cursors_supplied, ← ht]

lemma served50_facts (pages : List Page) (h : served50 pages) :
    (get_videos pages).length = total_items pages ∧
    num_requests pages = max 1 ((total_items pages + 49) / 50) ∧
    tokens_sent pages = cursors_supplied pages := by
  cases pages with
  | nil => simp [served50] at h
  | cons p rest =>
    cases rest with
    | nil =>
      obtain ⟨h1, h2⟩ := h
      rw [get_videos_cons_none _ h2, num_requests_cons_none _ h2, tokens_sent_cons_none _ h2,
        total_items_cons]
      refine ⟨by simp [total_items], by simp [total_items]; omega, ?_⟩
      simp [cursors_supplied, h2]
    | cons q rest2 =>
      obtain ⟨h1, h2, h3⟩ := h
      obtain ⟨t, ht⟩ := Option.ne_none_iff_exists.mp h2
      obtain ⟨ih1, ih2, ih3, ih4⟩ := served50_tail_facts (q :: rest2) h3
      rw [get_videos_cons_some _ ht.symm, num_requests_cons_some _ ht.symm,
        tokens_sent_cons_some _ ht.symm, total_items_cons]
      refine ⟨by simp [ih1, h1], ?_, ?_⟩
      · rw [ih2, h1]; omega
      · rw [ih4]; simp [cursors_supplied, ← ht]

/-- C1, counterexample: for an empty playlist (K = 0) served as a single
cursorless response with no items, the pagination loop still issues its
unconditional first request, so it makes 1 page request while
ceil(K/50) = 0.  The claim's request count is wrong at K = 0. -/
theorem get_videos_empty_playlist_one_request :
    served50 [Page.mk [] none] ∧ total_items [Page.mk [] none] = 0 ∧
    (get_videos [Page.mk [] none]).length = 0 ∧
    ¬ num_requests [Page.mk [] none] = (total_items [Page.mk [] none] + 49) / 50 :=
  ⟨⟨by decide, rfl⟩, rfl, rfl, by decide⟩

/-- C1, amended: for every playlist listing of K videos served in pages of
size 50, `get_videos` returns exactly K records and issues exactly
max(1, ceil(K/50)) page requests (the loop always issues one request, so an
empty playlist costs one request rather than zero), consuming the pagination
cursors exactly in the order the responses supply them. -/
theorem get_videos_record_count_requests (pages : List Page) (h : served50 pages) :
    (get_videos pages).length = total_items pages ∧
    num_requests pages = max 1 ((total_items pages + 49) / 50) ∧
    tokens_sent pages = cursors_supplied pages :=
  served50_facts pages h

/-- Witness for `get_videos_record_count_requests` at a one-page listing. -/
theorem get_videos_record_count_requests_witness :
    (get_videos [Page.mk [PageItem.mk "a" "idA"] none]).length =
        total_items [Page.mk [PageItem.mk "a" "idA"] none] ∧
    num_requests [Page.mk [PageItem.mk "a" "idA"] none] =
        max 1 ((total_items [Page.mk [PageItem.mk "a" "idA"] none] + 49) / 50) ∧
    tokens_sent [Page.mk [PageItem.mk "a" "idA"] none] =
        cursors_supplied [Page.mk [PageItem.mk "a" "idA"] none] :=
  get_videos_record_count_requests [Page.mk [PageItem.mk "a" "idA"] none] ⟨by decide, rfl⟩

/-- C9: whenever some response carries no next-page cursor, the pagination
loop terminates: it requests exactly the pages up to and including the first
cursorless response (index `findIdx` of the first response whose
`nextPageToken` is absent), in particular no more requests than there are
responses. -/
theorem get_videos_terminates_at_first_cursorless (pages : List Page)
    (h : ∃ p ∈ pages, p.nextPageToken = none) :
    num_requests pages = pages.findIdx (fun p => p.nextPageToken.isNone) + 1 ∧
    num_requests pages ≤ pages.length := by
  induction pages with
  | nil => simp at h
  | cons p rest ih =>
    cases hp : p.nextPageToken with
    | none =>
      rw [num_requests_cons_none _ hp]
      refine ⟨?_, by simp⟩
      rw [List.findIdx_cons]
      simp [hp]
    | some t =>
      rw [num_requests_cons_some _ hp]
      have hr : ∃ q ∈ rest, q.nextPageToken = none := by
        obtain ⟨q, hq, hq2⟩ := h
        cases List.mem_cons.mp hq with
        | inl he =>
          rw [he, hp] at hq2
          cases hq2
        | inr hm => exact ⟨q, hm, hq2⟩
      obtain ⟨ih1, ih2⟩ := ih hr
      refine ⟨?_, by simp; omega⟩
      rw [List.findIdx_cons]
      simp [hp, ih1]
      omega

/-- Witness for `get_videos_terminates_at_first_cursorless` on a two-page
listing whose second response has no cursor. -/
theorem get_videos_terminates_witness :
    num_requests [Page.mk [] (some "t"), Page.mk [] none] =
        (List.findIdx (fun p => p.nextPageToken.isNone)
          [Page.mk [] (some "t"), Page.mk [] none]) + 1 ∧
    num_requests [Page.mk [] (some "t"), Page.mk [] none] ≤
        (List.length [Page.mk [] (some "t"), Page.mk [] none]) :=
  get_videos_terminates_at_first_cursorless [Page.mk [] (some "t"), Page.mk [] none]
    ⟨Page.mk [] none, by decide, rfl⟩

lemma toVideo_mergeRecord (vc : List (String × String)) (v : VideoRecord) :
    toVideo (mergeRecord vc v) = v := rfl

lemma batchMerge_map_toVideo (respFor : List String → List (String × String))
    (b : List VideoRecord) : (batchMerge respFor b).map toVideo = b := by
  unfold batchMerge
  rw [List.map_map]
  have h : toVideo ∘ mergeRecord (get_view_counts (respFor (b.map (fun v => v.video_id)))) =
      id := funext fun v => rfl
  rw [h, List.map_id]

lemma chunks50Go_merge_map_toVideo (respFor : List String → List (String × String)) :
    ∀ (n : Nat) (l : List VideoRecord), l.length ≤ n →
    (((chunks50Go n l).map (batchMerge respFor)).flatten).map toVideo = l := by
  intro n
  induction n with
  | zero =>
    intro l h
    cases l with
    | nil => rfl
    | cons v vs => simp at h
  | succ n ih =>
    intro l h
    cases l with
    | nil => rfl
    | cons v vs =>
      rw [chunks50Go]
      simp only [List.map_cons, List.flatten_cons, List.map_append]
      rw [batchMerge_map_toVideo, ih ((v :: vs).drop 50)
        (by simp only [List.length_drop, List.length_cons] at h ⊢; omega)]
      exact List.take_append_drop 50 (v :: vs)

/-- C2: for every playlist listing and every modelled statistics endpoint,
the records `get_video_data` returns are, in order, exactly the records
`get_videos` produced (forgetting the merged `views` field): the size-50
batch splitting does not reorder, whatever the list length and wherever the
batch boundaries fall. -/
theorem get_video_data_preserves_order (pages : List Page)
    (respFor : List String → List (String × String)) :
    (get_video_data pages respFor).map toVideo = get_videos pages :=
  chunks50Go_merge_map_toVideo respFor (get_videos pages).length (get_videos pages)
    (Nat.le_refl _)

lemma mem_dictInsert {q : String × String} {m : List (String × String)} {k v : String}
    (h : q ∈ dictInsert m k v) : q ∈ m ∨ q = (k, v) := by
  unfold dictInsert at h
  split at h
  · obtain ⟨p, hp, he⟩ := List.mem_map.mp h
    by_cases hk : (p.1 == k) = true
    · right
      rw [← he]
      simp [hk]
    · left
      simp only [Bool.not_eq_true] at hk
      rw [hk] at he
      simp at he
      rw [← he]
      exact hp
  · rcases List.mem_append.mp h with h1 | h2
    · left; exact h1
    · right; simpa using h2

lemma mem_foldl_dictInsert :
    ∀ (items : List (String × String)) (acc : List (String × String)) (q : String × String),
    q ∈ items.foldl (fun m it => dictInsert m it.1 it.2) acc → q ∈ acc ∨ q ∈ items := by
  intro items
  induction items with
  | nil =>
    intro acc q h
    left
    simpa using h
  | cons it rest ih =>
    intro acc q h
    rcases ih (dictInsert acc it.1 it.2) q h with h1 | h2
    · rcases mem_dictInsert h1 with h3 | h4
      · left; exact h3
      · right
        rw [h4]
        simp
    · right
      exact List.mem_cons_of_mem _ h2

lemma mem_get_view_counts {q : String × String} {items : List (String × String)}
    (h : q ∈ get_view_counts items) : q ∈ items := by
  rcases mem_foldl_dictInsert items [] q h with h1 | h2
  · simp at h1
  · exact h2

lemma dictGet_of_not_mem_keys {m : List (String × String)} {k d : String}
    (h : k ∉ dictKeys m) : dictGet m k d = d := by
  unfold dictGet
  have hf : m.find? (fun q => q.1 == k) = none := by
    rw [List.find?_eq_none]
    intro q hq
    simp only [beq_iff_eq]
    intro he
    exact h (List.mem_map.mpr ⟨q, hq, he⟩)
  rw [hf]

lemma dictGet_default_or_mem (m : List (String × String)) (k d : String) :
    dictGet m k d = d ∨ ∃ q ∈ m, dictGet m k d = q.2 := by
  unfold dictGet
  cases hf : m.find? (fun q => q.1 == k) with
  | none => left; rfl
  | some q => right; exact ⟨q, List.mem_of_find?_eq_some hf, rfl⟩

lemma mem_get_video_data_from {respFor : List String → List (String × String)}
    {videos : List VideoRecord} {r : FullRecord}
    (hr : r ∈ get_video_data_from respFor videos) :
    ∃ batch ∈ chunks50 videos, ∃ v ∈ batch,
      r = mergeRecord (get_view_counts (respFor (batch.map (fun x => x.video_id)))) v := by
  obtain ⟨l, hl, hrl⟩ := List.mem_flatten.mp hr
  obtain ⟨batch, hb, he⟩ := List.mem_map.mp hl
  rw [← he] at hrl
  obtain ⟨v, hv, hev⟩ := List.mem_map.mp hrl
  exact ⟨batch, hb, v, hv, hev.symm⟩

/-- C3: every record `get_video_data` emits is the merge of some video of
some batch with that batch's stats dict, and whenever the record's id is
absent from that dict its `views` field is exactly the literal `"0"` (the
record always carries a `views` field: the `FullRecord` type has one). -/
theorem get_video_data_default_views (respFor : List String → List (String × String))
    (videos : List VideoRecord) (r : FullRecord)
    (hr : r ∈ get_video_data_from respFor videos) :
    ∃ batch ∈ chunks50 videos, ∃ v ∈ batch,
      r = mergeRecord (get_view_counts (respFor (batch.map (fun x => x.video_id)))) v ∧
      (r.video_id ∉ dictKeys (get_view_counts (respFor (batch.map (fun x => x.video_id)))) →
        r.views = "0") := by
  obtain ⟨batch, hb, v, hv, he⟩ := mem_get_video_data_from hr
  refine ⟨batch, hb, v, hv, he, ?_⟩
  intro hk
  rw [he]
  rw [he] at hk
  exact dictGet_of_not_mem_keys hk

/-- Witness for `get_video_data_default_views`: one video, an empty
statistics response, the emitted record has `views = "0"`. -/
theorem get_video_data_default_views_witness :
    ∃ batch ∈ chunks50 [VideoRecord.mk "t" "u" "a"], ∃ v ∈ batch,
      FullRecord.mk "t" "u" "a" "0" =
        mergeRecord (get_view_counts ((fun _ => []) (batch.map (fun x => x.video_id)))) v ∧
      ((FullRecord.mk "t" "u" "a" "0").video_id ∉
          dictKeys (get_view_counts ((fun _ => []) (batch.map (fun x => x.video_id)))) →
        (FullRecord.mk "t" "u" "a" "0").views = "0") :=
  get_video_data_default_views (fun _ => []) [VideoRecord.mk "t" "u" "a"]
    (FullRecord.mk "t" "u" "a" "0") (by decide)

/-- C4, counterexample: `get_view_counts` keys the returned dict by the ids
of the response items without filtering them against the requested batch, so
a response item whose id was not requested lands in the mapping's keys: for
requested batch `["a"]` (size 1 ≤ 50) and response item `("b", "5")` the key
`"b"` is not among the input identifiers. -/
theorem get_view_counts_foreign_id_key :
    (List.length ["a"] ≤ 50) ∧
    ¬ (∀ k ∈ dictKeys (get_view_counts [("b", "5")]), k ∈ ["a"]) := by
  decide

/-- C4, amended: for every batch of at most 50 identifiers, the keys of the
mapping `get_view_counts` returns are a subset of the input identifiers
provided every response item's id is one of the requested identifiers (which
the platform guarantees but the code does not enforce). -/
theorem get_view_counts_keys_subset (video_ids : List String)
    (resp : List (String × String)) (hlen : video_ids.length ≤ 50)
    (hresp : ∀ q ∈ resp, q.1 ∈ video_ids) :
    ∀ k ∈ dictKeys (get_view_counts resp), k ∈ video_ids := by
  intro k hk
  obtain ⟨q, hq, he⟩ := List.mem_map.mp hk
  rw [← he]
  exact hresp q (mem_get_view_counts hq)

/-- Witness for `get_view_counts_keys_subset`: batch `["a"]`, response item
`("a", "7")`, applied to the returned key `"a"`. -/
theorem get_view_counts_keys_subset_witness : "a" ∈ ["a"] :=
  get_view_counts_keys_subset ["a"] [("a", "7")] (by decide) (by decide) "a" (by decide)

lemma views_of_mem_get_video_data {respFor : List String → List (String × String)}
    {videos : List VideoRecord} {r : FullRecord}
    (hr : r ∈ get_video_data_from respFor videos) :
    r.views = "0" ∨ ∃ ids, ∃ q ∈ respFor ids, r.views = q.2 := by
  obtain ⟨batch, hb, v, hv, he⟩ := mem_get_video_data_from hr
  rw [he]
  rcases dictGet_default_or_mem
      (get_view_counts (respFor (batch.map (fun x => x.video_id)))) v.video_id "0" with
    h0 | ⟨q, hq, hval⟩
  · left
    exact h0
  · right
    exact ⟨batch.map (fun x => x.video_id), q, mem_get_view_counts hq, hval⟩

/-- C5: whenever the statistics endpoint only ever supplies decimal-numeral
view counts, every record `get_video_data` emits has a `views` field that is
a decimal numeral, i.e. resolves to a non-negative integer (the fallback
`"0"` is the numeral 0), regardless of which identifiers the responses
cover. -/
theorem get_video_data_views_are_counts (respFor : List String → List (String × String))
    (videos : List VideoRecord)
    (hresp : ∀ ids : List String, ∀ q ∈ respFor ids, isCount q.2 = true) :
    ∀ r ∈ get_video_data_from respFor videos, isCount r.views = true := by
  intro r hr
  rcases views_of_mem_get_video_data hr with h0 | ⟨ids, q, hq, hval⟩
  · rw [h0]
    decide
  · rw [hval]
    exact hresp ids q hq

/-- Witness for `get_video_data_views_are_counts`: one video, one response
item `("a", "5")`, applied to the emitted record, whose views `"5"` is a
numeral. -/
theorem get_video_data_views_are_counts_witness :
    isCount (FullRecord.mk "t" "u" "a" "5").views = true :=
  get_video_data_views_are_counts (fun _ => [("a", "5")]) [VideoRecord.mk "t" "u" "a"]
    (by intro ids q hq; simp only [List.mem_singleton] at hq; rw [hq]; decide)
    (FullRecord.mk "t" "u" "a" "5") (by decide)

/-- C6: `write_data` is deterministic in its input: the produced file name
and file content are a pure function of the record sequence and the channel
name (no timestamps or other run-dependent data enter the output), so two
runs with identical inputs produce byte-identical files. -/
theorem write_data_deterministic (data1 data2 : List FullRecord)
    (name1 name2 : String) (hd : data1 = data2) (hn : name1 = name2) :
    write_data data1 name1 = write_data data2 name2 := by
  rw [hd, hn]

/-- Witness for `write_data_deterministic`. -/
theorem write_data_deterministic_witness :
    write_data [FullRecord.mk "t" "u" "a" "0"] "Ben Heath" =
      write_data [FullRecord.mk "t" "u" "a" "0"] "Ben Heath" :=
  write_data_deterministic [FullRecord.mk "t" "u" "a" "0"]
    [FullRecord.mk "t" "u" "a" "0"] "Ben Heath" "Ben Heath" rfl rfl

/-- C7: for every record sequence and channel name, `write_data` writes the
file `<channel_name>.csv` (in particular, channel name `"Ben Heath"` yields
the file name `"Ben Heath.csv"`), whose content starts with the header row,
which is literally `title,video_url,views` followed by the `\r\n`
terminator.  The file is opened with mode `'w'`, so an existing file is
overwritten. -/
theorem write_data_filename_header (data : List FullRecord) (name : String) :
    (write_data data name).1 = name ++ ".csv" ∧
    (write_data data "Ben Heath").1 = "Ben Heath.csv" ∧
    csvRow ["title", "video_url", "views"] = "title,video_url,views\r\n".data ∧
    ∃ rest, (write_data data name).2.data = "title,video_url,views\r\n".data ++ rest := by
  have h : csvRow ["title", "video_url", "views"] = "title,video_url,views\r\n".data := by
    decide
  refine ⟨rfl, rfl, h, (data.map (fun v => csvRow [v.title, v.video_url, v.views])).flatten, ?_⟩
  rw [← h]
  rfl

lemma nlCount_append (a b : List Char) : nlCount (a ++ b) = nlCount a + nlCount b := by
  induction a with
  | nil => exact (Nat.zero_add _).symm
  | cons c cs ih =>
    show (if c = '\n' then 1 else 0) + nlCount (cs ++ b) =
      (if c = '\n' then 1 else 0) + nlCount cs + nlCount b
    rw [ih]
    omega

lemma nlCount_eq_zero {l : List Char} (h : '\n' ∉ l) : nlCount l = 0 := by
  induction l with
  | nil => rfl
  | cons c cs ih =>
    simp only [List.mem_cons, not_or] at h
    have hc : ¬ (c = '\n') := fun he => h.1 he.symm
    show (if c = '\n' then 1 else 0) + nlCount cs = 0
    rw [if_neg hc, ih h.2]

lemma nlCount_escapeQuotes (l : List Char) : nlCount (escapeQuotes l) = nlCount l := by
  induction l with
  | nil => rfl
  | cons c cs ih =>
    rw [escapeQuotes]
    by_cases hc : (c == '"') = true
    · rw [if_pos hc]
      have hcq : c = '"' := beq_iff_eq.mp hc
      subst hcq
      simp [nlCount, ih]
    · rw [if_neg hc]
      simp [nlCount, ih]

lemma nlCount_csvField {s : String} (h : '\n' ∉ s.data) : nlCount (csvField s) = 0 := by
  unfold csvField
  split
  · show nlCount ('"' :: (escapeQuotes s.data ++ ['"'])) = 0
    rw [show nlCount ('"' :: (escapeQuotes s.data ++ ['"'])) =
      nlCount (escapeQuotes s.data ++ ['"']) from by simp [nlCount]]
    rw [nlCount_append, nlCount_escapeQuotes, nlCount_eq_zero h]
    rfl
  · exact nlCount_eq_zero h

lemma nlCount_sepByComma {fs : List (List Char)} (h : ∀ f ∈ fs, nlCount f = 0) :
    nlCount (sepByComma fs) = 0 := by
  induction fs with
  | nil => rfl
  | cons f rest ih =>
    cases rest with
    | nil => exact h f (List.mem_singleton.mpr rfl)
    | cons g fs2 =>
      rw [sepByComma, nlCount_append]
      rw [h f (List.mem_cons_self _ _)]
      have h2 : nlCount (',' :: sepByComma (g :: fs2)) = nlCount (sepByComma (g :: fs2)) := by
        simp [nlCount]
      rw [h2, ih (fun x hx => h x (List.mem_cons_of_mem _ hx))]

lemma nlCount_csvRow {fields : List String} (h : ∀ s ∈ fields, '\n' ∉ s.data) :
    nlCount (csvRow fields) = 1 := by
  rw [csvRow, nlCount_append]
  rw [nlCount_sepByComma (fun f hf => ?_)]
  · rfl
  · obtain ⟨s, hs, he⟩ := List.mem_map.mp hf
    rw [← he]
    exact nlCount_csvField (h s hs)

lemma nlCount_rows (data : List FullRecord)
    (h : ∀ r ∈ data, '\n' ∉ r.title.data ∧ '\n' ∉ r.video_url.data ∧ '\n' ∉ r.views.data) :
    nlCount ((data.map (fun v => csvRow [v.title, v.video_url, v.views])).flatten) =
      data.length := by
  induction data with
  | nil => rfl
  | cons r rest ih =>
    simp only [List.map_cons, List.flatten_cons, nlCount_append, List.length_cons]
    obtain ⟨h1, h2, h3⟩ := h r (List.mem_cons_self _ _)
    rw [nlCount_csvRow (by
      intro s hs
      simp only [List.mem_cons, List.mem_singleton, List.not_mem_nil] at hs
      rcases hs with hs | hs | hs | hs
      · rw [hs]; exact h1
      · rw [hs]; exact h2
      · rw [hs]; exact h3
      · cases hs)]
    rw [ih (fun x hx => h x (List.mem_cons_of_mem _ hx))]
    omega

/-- C8, counterexample: a title containing a newline character is quoted by
the CSV writer but its newline stays in the file, so the file's physical
line count exceeds N + 1: with the single record
`{title := "a\nb", video_url := "u", video_id := "idA", views := "7"}` the
content holds 3 newline-terminated lines, not 1 + 1 = 2. -/
theorem write_data_newline_title_linecount :
    countNL (write_data [FullRecord.mk "a\nb" "u" "idA" "7"] "ch").2 = 3 ∧
    ¬ countNL (write_data [FullRecord.mk "a\nb" "u" "idA" "7"] "ch").2 =
        List.length [FullRecord.mk "a\nb" "u" "idA" "7"] + 1 := by
  decide

/-- C8, amended: the file `write_data` produces is one header row followed
by exactly one CSV row per record, whatever the field values (delimiters and
quotes in a title are quoted/escaped and add no line); its physical line
count — the number of newline characters, every emitted row being
`\r\n`-terminated — equals N + 1 provided no field value contains a newline
character.  (A field containing a newline is written quoted but keeps the
newline, so the physical line count then exceeds N + 1.) -/
theorem write_data_line_count (data : List FullRecord) (name : String)
    (h : ∀ r ∈ data, '\n' ∉ r.title.data ∧ '\n' ∉ r.video_url.data ∧ '\n' ∉ r.views.data) :
    (write_data data name).2.data =
      csvRow ["title", "video_url", "views"] ++
        (data.map (fun v => csvRow [v.title, v.video_url, v.views])).flatten ∧
    countNL (write_data data name).2 = data.length + 1 := by
  refine ⟨rfl, ?_⟩
  show nlCount (csvRow ["title", "video_url", "views"] ++
    (data.map (fun v => csvRow [v.title, v.video_url, v.views])).flatten) = data.length + 1
  rw [nlCount_append, nlCount_rows data h]
  rw [show nlCount (csvRow ["title", "video_url", "views"]) = 1 from by decide]
  omega

/-- Witness for `write_data_line_count`: one newline-free record gives a
2-line file. -/
theorem write_data_line_count_witness :
    (write_data [FullRecord.mk "t" "u" "a" "0"] "ch").2.data =
      csvRow ["title", "video_url", "views"] ++
        ([FullRecord.mk "t" "u" "a" "0"].map
          (fun v => csvRow [v.title, v.video_url, v.views])).flatten ∧
    countNL (write_data [FullRecord.mk "t" "u" "a" "0"] "ch").2 =
      List.length [FullRecord.mk "t" "u" "a" "0"] + 1 :=
  write_data_line_count [FullRecord.mk "t" "u" "a" "0"] "ch" (by decide)

/-- C10: when the playlist listing is empty, the batch loop body never runs:
`get_video_data` returns the empty list, zero `get_view_counts` calls are
issued, and `write_data` then writes a file holding only the header row. -/
theorem empty_listing_header_only (pages : List Page)
    (respFor : List String → List (String × String)) (name : String)
    (h : get_videos pages = []) :
    get_video_data pages respFor = [] ∧
    stats_calls (get_videos pages) = 0 ∧
    (write_data (get_video_data pages respFor) name).2.data =
      csvRow ["title", "video_url", "views"] := by
  rw [get_video_data, h]
  refine ⟨rfl, rfl, ?_⟩
  show csvRow ["title", "video_url", "views"] ++
    (([] : List FullRecord).map (fun v => csvRow [v.title, v.video_url, v.views])).flatten =
    csvRow ["title", "video_url", "views"]
  simp

/-- Witness for `empty_listing_header_only`: a single cursorless response
with no items. -/
theorem empty_listing_header_only_witness :
    get_video_data [Page.mk [] none] (fun _ => []) = [] ∧
    stats_calls (get_videos [Page.mk [] none]) = 0 ∧
    (write_data (get_video_data [Page.mk [] none] (fun _ => [])) "ch").2.data =
      csvRow ["title", "video_url", "views"] :=
  empty_listing_header_only [Page.mk [] none] (fun _ => []) "ch" rfl
